import Mathlib

/-!
Shallow embedding of the signature subsystem of `Zenithar/go-tuf`:
the key decoder (`pkg/key`), the signature algorithm implementations and
registry (`pkg/signatures`), together with proofs about the behaviour of
the embedded code.

Bytes are modelled as `Nat` (values < 256), byte slices as `List Nat`,
Go's `interface{}` key arguments as a closed inductive of the dynamic
types the code inspects, and fallible operations as `Except`/`Option`
results carrying the error text or error kind of the source.
-/

deriving instance DecidableEq for Except

namespace GoTuf

/-! ## Byte-string utilities

`bytesToNat` models `math/big.Int.SetBytes` (big-endian interpretation)
and `natToBytesBE k v` models `math/big.Int.FillBytes` on a `k`-byte
buffer: big-endian, zero-padded on the left.  Go's `FillBytes` panics
when the value does not fit; the embedding reduces the value modulo
`256 ^ k` instead, and every theorem that relies on the exact bytes
carries the no-overflow bound under which the two agree. -/

def bytesToNatAux : Nat → List Nat → Nat
  | acc, [] => acc
  | acc, b :: rest => bytesToNatAux (acc * 256 + b) rest

def bytesToNat (bs : List Nat) : Nat := bytesToNatAux 0 bs

def natToBytesBE : Nat → Nat → List Nat
  | 0, _ => []
  | k + 1, v => natToBytesBE k (v / 256) ++ [v % 256]

theorem natToBytesBE_length (k v : Nat) : (natToBytesBE k v).length = k := by
  induction k generalizing v with
  | zero => rfl
  | succ k ih => simp [natToBytesBE, ih]

theorem bytesToNatAux_append (xs ys : List Nat) (acc : Nat) :
    bytesToNatAux acc (xs ++ ys) = bytesToNatAux (bytesToNatAux acc xs) ys := by
  induction xs generalizing acc with
  | nil => rfl
  | cons b rest ih => simp [bytesToNatAux, ih]

theorem bytesToNatAux_natToBytesBE (k : Nat) :
    ∀ v acc, v < 256 ^ k → bytesToNatAux acc (natToBytesBE k v) = acc * 256 ^ k + v := by
  induction k with
  | zero =>
    intro v acc hv
    have : v = 0 := Nat.lt_one_iff.mp hv
    simp [natToBytesBE, bytesToNatAux, this]
  | succ k ih =>
    intro v acc hv
    have hdiv : v / 256 < 256 ^ k := by
      rw [Nat.div_lt_iff_lt_mul (by norm_num : 0 < 256)]
      calc v < 256 ^ (k + 1) := hv
        _ = 256 ^ k * 256 := by ring
    rw [natToBytesBE, bytesToNatAux_append, ih (v / 256) acc hdiv]
    simp [bytesToNatAux]
    calc (acc * 256 ^ k + v / 256) * 256 + v % 256
        = acc * (256 ^ k * 256) + (256 * (v / 256) + v % 256) := by ring
      _ = acc * 256 ^ (k + 1) + v := by rw [Nat.div_add_mod]; ring_nf

theorem bytesToNat_natToBytesBE {k v : Nat} (hv : v < 256 ^ k) :
    bytesToNat (natToBytesBE k v) = v := by
  have := bytesToNatAux_natToBytesBE k v 0 hv
  simpa [bytesToNat] using this

/-! ## Base64 (model of `encoding/base64.StdEncoding` as used by `encoding/json`
for `[]byte` fields)

Character codes are ASCII.  Decoding requires the input length to be a
multiple of four with `=` padding only at the end, and — like Go's
non-strict decoder — does not reject non-zero trailing bits. -/

def b64Val (c : Nat) : Option Nat :=
  if 65 ≤ c ∧ c ≤ 90 then some (c - 65)
  else if 97 ≤ c ∧ c ≤ 122 then some (c - 97 + 26)
  else if 48 ≤ c ∧ c ≤ 57 then some (c - 48 + 52)
  else if c = 43 then some 62
  else if c = 47 then some 63
  else none

def base64Decode : List Nat → Option (List Nat)
  | [] => some []
  | a :: b :: c :: d :: rest => do
      let va ← b64Val a
      let vb ← b64Val b
      if c = 61 then
        if d = 61 ∧ rest = [] then some [va * 4 + vb / 16] else none
      else do
        let vc ← b64Val c
        if d = 61 then
          if rest = [] then some [va * 4 + vb / 16, vb % 16 * 16 + vc / 4] else none
        else do
          let vd ← b64Val d
          let tail ← base64Decode rest
          some ([va * 4 + vb / 16, vb % 16 * 16 + vc / 4, vc % 4 * 64 + vd] ++ tail)
  | _ => none

/-! ## The JSON key envelope

`jsonKeyPair` is the decoder's wire structure
`{ Public []byte `json:"public"`; Private *[]byte `json:"private,omitempty"` }`.
Go's `nil`/empty distinction for `Public` is immaterial to every consumer
(only the length is inspected), so `Public` is a plain `List Nat`.

`decodeKeyPair` models
`json.NewDecoder(io.LimitReader(bytes.NewReader(value), MaxKeyInputSize)).Decode(&key)`:
a single JSON value is read from at most the first `MaxKeyInputSize`
bytes of the input; bytes after the value's closing brace are left
unread (exactly as `Decoder.Decode` leaves trailing data in its buffer),
and running out of readable bytes mid-value is a decode error.

The parser is a byte-at-a-time state machine over the subset of JSON the
envelope uses: one object whose member values are base64 strings or
`null`.  Members other than `public`/`private` are skipped when their
value lies in that subset; escape sequences, numbers and nested
composites are outside the modelled subset (no claim depends on them).
Go's case-insensitive field matching is likewise narrowed to the exact
lower-case names the envelope defines. -/

structure JsonKeyPair where
  pub : List Nat
  priv : Option (List Nat)
deriving DecidableEq, Repr

def pubFieldName : List Nat := [112, 117, 98, 108, 105, 99]

def privFieldName : List Nat := [112, 114, 105, 118, 97, 116, 101]

def assignField (keyName : List Nat) (bs : List Nat) (acc : JsonKeyPair) : JsonKeyPair :=
  if keyName = pubFieldName then ⟨bs, acc.priv⟩
  else if keyName = privFieldName then ⟨acc.pub, some bs⟩
  else acc

def isWs (c : Nat) : Bool := c == 32 || c == 9 || c == 10 || c == 13

def isB64Char (c : Nat) : Bool := (b64Val c).isSome || c == 61

inductive PState where
  | start
  | keyStart (first : Bool) (acc : JsonKeyPair)
  | key (chars : List Nat) (acc : JsonKeyPair)
  | colon (keyName : List Nat) (acc : JsonKeyPair)
  | valStart (keyName : List Nat) (acc : JsonKeyPair)
  | str (keyName : List Nat) (chars : List Nat) (acc : JsonKeyPair)
  | nul1 (keyName : List Nat) (acc : JsonKeyPair)
  | nul2 (keyName : List Nat) (acc : JsonKeyPair)
  | nul3 (keyName : List Nat) (acc : JsonKeyPair)
  | comma (acc : JsonKeyPair)
  | done (kp : JsonKeyPair)
deriving DecidableEq

def pstep : PState → Nat → Except String PState
  | .start, c =>
      if isWs c then .ok .start
      else if c = 123 then .ok (.keyStart true ⟨[], none⟩)
      else .error "invalid character looking for beginning of value"
  | .keyStart first acc, c =>
      if isWs c then .ok (.keyStart first acc)
      else if c = 34 then .ok (.key [] acc)
      else if c = 125 ∧ first then .ok (.done acc)
      else .error "invalid character looking for beginning of object key string"
  | .key chars acc, c =>
      if c = 34 then .ok (.colon chars acc)
      else if c = 92 then .error "escape sequences are outside the modelled subset"
      else .ok (.key (chars ++ [c]) acc)
  | .colon keyName acc, c =>
      if isWs c then .ok (.colon keyName acc)
      else if c = 58 then .ok (.valStart keyName acc)
      else .error "invalid character after object key"
  | .valStart keyName acc, c =>
      if isWs c then .ok (.valStart keyName acc)
      else if c = 34 then .ok (.str keyName [] acc)
      else if c = 110 then .ok (.nul1 keyName acc)
      else .error "value kinds beyond the modelled subset"
  | .str keyName chars acc, c =>
      if c = 34 then
        match base64Decode chars with
        | some bs => .ok (.comma (assignField keyName bs acc))
        | none => .error "illegal base64 data at input byte"
      else if isB64Char c then .ok (.str keyName (chars ++ [c]) acc)
      else .error "string characters beyond the modelled subset"
  | .nul1 keyName acc, c =>
      if c = 117 then .ok (.nul2 keyName acc) else .error "invalid literal"
  | .nul2 keyName acc, c =>
      if c = 108 then .ok (.nul3 keyName acc) else .error "invalid literal"
  | .nul3 _ acc, c =>
      if c = 108 then .ok (.comma acc) else .error "invalid literal"
  | .comma acc, c =>
      if isWs c then .ok (.comma acc)
      else if c = 44 then .ok (.keyStart false acc)
      else if c = 125 then .ok (.done acc)
      else .error "invalid character after object value"
  | .done kp, _ => .ok (.done kp)

def finishP : PState → Except String JsonKeyPair
  | .done kp => .ok kp
  | _ => .error "unexpected EOF"

def prun : Nat → List Nat → PState → Except String JsonKeyPair
  | 0, _, st => finishP st
  | _ + 1, [], st => finishP st
  | fuel + 1, c :: rest, st =>
      match st with
      | .done kp => .ok kp
      | _ =>
        match pstep st c with
        | .ok st2 => prun fuel rest st2
        | .error e => .error e

/-- MaxKeyInputSize defines the maximum processing length (1 MiB),
`const MaxKeyInputSize = 1024 * 1024`. -/
def MaxKeyInputSize : Nat := 1024 * 1024

def decodeKeyPair (value : List Nat) : Except String JsonKeyPair :=
  prun MaxKeyInputSize value .start

/-- The byte-limited decode reads nothing past its fuel: running the
machine on an input and on the input truncated to the fuel agree. -/
theorem prun_take (fuel : Nat) (input : List Nat) (st : PState) :
    prun fuel input st = prun fuel (input.take fuel) st := by
  induction fuel generalizing input st with
  | zero => rfl
  | succ f ih =>
    cases input with
    | nil => rfl
    | cons c rest =>
      rw [List.take_succ_cons]
      cases st <;>
        first
        | rfl
        | (simp only [prun]
           cases hp : pstep _ c with
           | error e => rfl
           | ok st2 => exact ih rest st2)

/-! ## NIST P-256 (model of `crypto/elliptic` for `elliptic.P256()`)

The decoder only ever uses the P-256 curve.  Field elements are `Nat`
values reduced modulo the prime; a curve point is `Option (Nat × Nat)`
with `none` the point at infinity.  `p256Add`/`p256Mul` implement the
affine short-Weierstrass group law that `CurveParams` implements in
Jacobian coordinates — the two compute the same group operation.
Exponentiation and scalar multiplication use an explicit fuel that
strictly exceeds the bit length of every exponent the embedded code can
supply (≤ 256-bit scalars from 32-byte strings), so the fuel case is
unreachable. -/

def p256P : Nat :=
  0xffffffff00000001000000000000000000000000ffffffffffffffffffffffff

def p256B : Nat :=
  0x5ac635d8aa3a93e7b3ebbd55769886bc651d06b0cc53b0f63bce3c3e27d2604b

def p256Gx : Nat :=
  0x6b17d1f2e12c4247f8bce6e563a440f277037d812deb33a0f4a13945d898c296

def p256Gy : Nat :=
  0x4fe342e2fe1a7f9b8ee7eb4a7c0f9e162bce33576b315ececbb6406837bf51f5

/-- Right-hand side of the curve equation, `x³ - 3x + b` modulo the prime. -/
def p256RHS (x : Nat) : Nat := (x * x * x + (p256P - 3) * x + p256B) % p256P

/-- Model of `CurveParams.IsOnCurve`: coordinates in range and satisfying
the curve equation. -/
def p256IsOnCurve (x y : Nat) : Bool :=
  decide (x < p256P) && decide (y < p256P) && (y * y % p256P == p256RHS x)

def powMod (m : Nat) : Nat → Nat → Nat → Nat
  | 0, _, _ => 1 % m
  | fuel + 1, b, e =>
      if e = 0 then 1 % m
      else
        let h := powMod m fuel (b * b % m) (e / 2)
        if e % 2 = 1 then h * b % m else h

/-- Modular inverse by Fermat's little theorem, as `big.Int.ModInverse`
computes it for the prime modulus. -/
def p256Inv (a : Nat) : Nat := powMod p256P 300 a (p256P - 2)

def P256Point := Option (Nat × Nat)

def p256Add : P256Point → P256Point → P256Point
  | none, q => q
  | some pt, none => some pt
  | some (x1, y1), some (x2, y2) =>
      if x1 = x2 then
        if (y1 + y2) % p256P = 0 then none
        else
          let lam := (3 * x1 * x1 + (p256P - 3)) % p256P * p256Inv (2 * y1 % p256P) % p256P
          let x3 := (lam * lam % p256P + 2 * p256P - (x1 + x2)) % p256P
          some (x3, (lam * ((x1 + p256P - x3) % p256P) + p256P - y1) % p256P)
      else
        let lam := (y2 + p256P - y1) % p256P * p256Inv ((x2 + p256P - x1) % p256P) % p256P
        let x3 := (lam * lam % p256P + 2 * p256P - (x1 + x2)) % p256P
        some (x3, (lam * ((x1 + p256P - x3) % p256P) + p256P - y1) % p256P)

def p256Mul : Nat → Nat → P256Point → P256Point
  | 0, _, _ => none
  | fuel + 1, k, pt =>
      if k = 0 then none
      else
        let q := p256Mul fuel (k / 2) pt
        let q2 := p256Add q q
        if k % 2 = 1 then p256Add q2 pt else q2

/-- Model of `curve.ScalarBaseMult(k []byte)`: the scalar is the
big-endian integer of `k`; the generic implementation represents the
point at infinity as the affine pair `(0, 0)`. -/
def p256ScalarBaseMult (k : List Nat) : Nat × Nat :=
  match p256Mul 300 (bytesToNat k) (some (p256Gx, p256Gy)) with
  | none => (0, 0)
  | some xy => xy

/-- Model of `curveByteSize(params)` from the decoder:
`bitSize / 8`, plus one when the bit size is not a byte multiple. -/
def curveByteSize (bitSize : Nat) : Nat :=
  bitSize / 8 + (if bitSize % 8 ≠ 0 then 1 else 0)

def p256ByteSize : Nat := curveByteSize 256

/-- Model of `elliptic.Unmarshal` for P-256 in the Go toolchains this
repository targets (pre-1.19 `CurveParams` behaviour): exact length
`1 + 2·byteSize`, leading tag byte 4, and both coordinates below the
prime; the on-curve check is left to the caller. -/
def ellipticUnmarshal (bs : List Nat) : Option (Nat × Nat) :=
  if bs.length ≠ 1 + 2 * p256ByteSize then none
  else if bs.headD 0 ≠ 4 then none
  else
    let x := bytesToNat ((bs.drop 1).take p256ByteSize)
    let y := bytesToNat (bs.drop (1 + p256ByteSize))
    if p256P ≤ x ∨ p256P ≤ y then none
    else some (x, y)

/-- Model of `elliptic.UnmarshalCompressed` for P-256: exact length
`1 + byteSize`, tag byte 2 or 3, coordinate below the prime, and a
square root of the curve polynomial chosen by the tag's parity bit
(`p ≡ 3 mod 4`, so the root is `rhs^((p+1)/4)`, and the root check
models `ModSqrt` returning `nil` for a non-residue). -/
def ellipticUnmarshalCompressed (bs : List Nat) : Option (Nat × Nat) :=
  if bs.length ≠ 1 + p256ByteSize then none
  else if bs.headD 0 ≠ 2 ∧ bs.headD 0 ≠ 3 then none
  else
    let x := bytesToNat (bs.drop 1)
    if p256P ≤ x then none
    else
      let rhs := p256RHS x
      let y0 := powMod p256P 300 rhs ((p256P + 1) / 4)
      if y0 * y0 % p256P ≠ rhs then none
      else
        let y := if y0 % 2 = bs.headD 0 % 2 then y0 else (p256P - y0) % p256P
        some (x, y)

/-! ## Ed25519 ingredients of the key decoder -/

/-- Spec test vector: the ASCII bytes of the deterministic seed
`"32-characters-deterministic-seed"`. -/
def specSeedBytes : List Nat :=
  [51, 50, 45, 99, 104, 97, 114, 97, 99, 116, 101, 114, 115, 45, 100, 101,
   116, 101, 114, 109, 105, 110, 105, 115, 116, 105, 99, 45, 115, 101, 101, 100]

/-- Spec test vector: the 32-byte public key
`9589642d1c890b452e3c4084aaa19405a0c78fca89f862e366ced34702a119c6`
that Ed25519 key generation derives from `specSeedBytes`. -/
def specPubBytes : List Nat :=
  [0x95, 0x89, 0x64, 0x2d, 0x1c, 0x89, 0x0b, 0x45,
   0x2e, 0x3c, 0x40, 0x84, 0xaa, 0xa1, 0x94, 0x05,
   0xa0, 0xc7, 0x8f, 0xca, 0x89, 0xf8, 0x62, 0xe3,
   0x66, 0xce, 0xd3, 0x47, 0x02, 0xa1, 0x19, 0xc6]

/-- Modelled from the spec: the seed → public-key derivation performed by
`ed25519.GenerateKey(bytes.NewReader(privateBytes))`, which reads the
32-byte seed (the first 32 bytes of the supplied reader) and derives the
corresponding public key.  The full SHA-512/edwards25519 derivation is a
standard-library primitive outside this repository; the spec pins its
value only at the deterministic test seed, and no claim depends on its
value elsewhere, so other seeds map to an arbitrary but fixed 32-byte
string (the seed itself). -/
def ed25519DerivePub (seed : List Nat) : List Nat :=
  if seed = specSeedBytes then specPubBytes else seed

/-- Modelled from the spec: `isEdLowOrder` is referenced by the decoder
but its definition is not part of the sources here; the spec describes
it as membership in "a small fixed blacklist" of known low-order point
encodings.  The entries are the canonical small-order encodings: the
identity, the order-two point, the order-four points and the two
order-eight points (with the sign-bit variants of the latter two). -/
def edLowOrderPoints : List (List Nat) :=
  [ [1, 0, 0, 0, 0, 0, 0, 0, 0, 0, 0, 0, 0, 0, 0, 0,
     0, 0, 0, 0, 0, 0, 0, 0, 0, 0, 0, 0, 0, 0, 0, 0],
    [0, 0, 0, 0, 0, 0, 0, 0, 0, 0, 0, 0, 0, 0, 0, 0,
     0, 0, 0, 0, 0, 0, 0, 0, 0, 0, 0, 0, 0, 0, 0, 0],
    [0, 0, 0, 0, 0, 0, 0, 0, 0, 0, 0, 0, 0, 0, 0, 0,
     0, 0, 0, 0, 0, 0, 0, 0, 0, 0, 0, 0, 0, 0, 0, 0x80],
    [0xec, 0xff, 0xff, 0xff, 0xff, 0xff, 0xff, 0xff, 0xff, 0xff, 0xff, 0xff,
     0xff, 0xff, 0xff, 0xff, 0xff, 0xff, 0xff, 0xff, 0xff, 0xff, 0xff, 0xff,
     0xff, 0xff, 0xff, 0xff, 0xff, 0xff, 0xff, 0x7f],
    [0x26, 0xe8, 0x95, 0x8f, 0xc2, 0xb2, 0x27, 0xb0, 0x45, 0xc3, 0xf4, 0x89,
     0xf2, 0xef, 0x98, 0xf0, 0xd5, 0xdf, 0xac, 0x05, 0xd3, 0xc6, 0x33, 0x39,
     0xb1, 0x38, 0x02, 0x88, 0x6d, 0x53, 0xfc, 0x05],
    [0x26, 0xe8, 0x95, 0x8f, 0xc2, 0xb2, 0x27, 0xb0, 0x45, 0xc3, 0xf4, 0x89,
     0xf2, 0xef, 0x98, 0xf0, 0xd5, 0xdf, 0xac, 0x05, 0xd3, 0xc6, 0x33, 0x39,
     0xb1, 0x38, 0x02, 0x88, 0x6d, 0x53, 0xfc, 0x85],
    [0xc7, 0x17, 0x6a, 0x70, 0x3d, 0x4d, 0xd8, 0x4f, 0xba, 0x3c, 0x0b, 0x76,
     0x0d, 0x10, 0x67, 0x0f, 0x2a, 0x20, 0x53, 0xfa, 0x2c, 0x39, 0xcc, 0xc6,
     0x4e, 0xc7, 0xfd, 0x77, 0x92, 0xac, 0x03, 0x7a],
    [0xc7, 0x17, 0x6a, 0x70, 0x3d, 0x4d, 0xd8, 0x4f, 0xba, 0x3c, 0x0b, 0x76,
     0x0d, 0x10, 0x67, 0x0f, 0x2a, 0x20, 0x53, 0xfa, 0x2c, 0x39, 0xcc, 0xc6,
     0x4e, 0xc7, 0xfd, 0x77, 0x92, 0xac, 0x03, 0xfa] ]

def isEdLowOrder (pubKey : List Nat) : Bool := edLowOrderPoints.contains pubKey

/-! ## The key decoder (`pkg/key/unmarshal.go`)

`DecodedKey` is the closed set of dynamic types the decoder can place in
its `interface{}` result: `ed25519.PublicKey`, `ed25519.PrivateKey`,
`*ecdsa.PublicKey`, `*ecdsa.PrivateKey` (pointer and value shapes carry
the same data, so the embedding does not distinguish them).  A `nil`
interface result is `none` in the `Option`. -/

structure EcdsaPubKey where
  curveBits : Nat
  x : Nat
  y : Nat
deriving DecidableEq, Repr

structure EcdsaPrivKey where
  toPub : EcdsaPubKey
  d : Nat
deriving DecidableEq, Repr

inductive DecodedKey where
  | ed25519Pub (pubKey : List Nat)
  | ed25519Priv (privKey : List Nat)
  | ecdsaPub (k : EcdsaPubKey)
  | ecdsaPriv (k : EcdsaPrivKey)
deriving DecidableEq, Repr

def ed25519PublicKeySize : Nat := 32

def ed25519PrivateKeySize : Nat := 64

/-- Model of `unmarshalEd25519Key`.  The `ed25519.GenerateKey` error
branch is unreachable here: the reader always holds the 64 ≥ 32 bytes
the derivation consumes, so derivation is modelled as total. -/
def unmarshalEd25519Key : Option JsonKeyPair → Except String (Option DecodedKey)
  | none => .error "key: nil decoded key components"
  | some raw =>
    if raw.pub.length ≠ ed25519PublicKeySize then
      .error "key: unexpected public key length for ed25519 key"
    else if isEdLowOrder raw.pub then
      .error "key: the public key is blacklisted"
    else
      match raw.priv with
      | none => .ok (some (.ed25519Pub raw.pub))
      | some pb =>
        if pb.length ≠ ed25519PrivateKeySize then
          .error "key: unexpected public key length for ed25519 key"
        else if ed25519DerivePub (pb.take 32) ≠ raw.pub then
          .error "key: public and private keys doesn't match"
        else .ok (some (.ed25519Priv pb))

/-- Model of `unmarshalECDSAKey` (P-256 only, as the source fixes
`curve := elliptic.P256()`). -/
def unmarshalECDSAKey : Option JsonKeyPair → Except String (Option DecodedKey)
  | none => .error "key: nil decoded key components"
  | some raw =>
    match raw.pub with
    | [] => .error "key: invalid public key size"
    | c :: _ =>
      if c = 2 ∨ c = 3 ∨ c = 4 then
        match (if c = 4 then ellipticUnmarshal raw.pub
               else ellipticUnmarshalCompressed raw.pub) with
        | none => .error "key: unable to decode ecdsa public key"
        | some (x, y) =>
          if ¬ p256IsOnCurve x y then
            .error "key: ecdsa public key point is not on the associated curve"
          else
            let pub : EcdsaPubKey := ⟨256, x, y⟩
            match raw.priv with
            | none => .ok (some (.ecdsaPub pub))
            | some pb =>
              if pb.length ≠ p256ByteSize then
                .error "key: invalid ecdsa private key length for the associated curve"
              else
                let sbm := p256ScalarBaseMult pb
                if sbm.1 ≠ pub.x ∨ sbm.2 ≠ pub.y then
                  .error "key: public and private keys doesn't match"
                else .ok (some (.ecdsaPriv ⟨pub, bytesToNat pb⟩))
      else .error "key: unsupported ecdsa public key encoding"

/-- Model of `unmarshalRSAKey`: after the nil-components check the body
is `return nil, nil` — success carrying a nil key. -/
def unmarshalRSAKey : Option JsonKeyPair → Except String (Option DecodedKey)
  | none => .error "key: nil decoded key components"
  | some _ => .ok none

def KeyTypeEd25519 : String := "ed25519"

def KeyTypeECDSA_SHA2_P256 : String := "ecdsa-sha2-nistp256"

def KeyTypeRSASSA_PSS_SHA256 : String := "rsassa-pss-sha256"

/-- A TUF key record as the decoder reads it: the declared type string
and the raw JSON bytes of the value (`data.PrivateKey`/`data.PublicKey`
restricted to the two fields the decoder uses). -/
structure TufKeyRecord where
  ktype : String
  value : List Nat

def FromPrivateKey : Option TufKeyRecord → Except String (Option DecodedKey)
  | none => .error "key: invalid private key object"
  | some tufPk =>
    match decodeKeyPair tufPk.value with
    | .error e => .error ("key: unable to decode the key components: " ++ e)
    | .ok key =>
      if tufPk.ktype = KeyTypeEd25519 then unmarshalEd25519Key (some key)
      else if tufPk.ktype = KeyTypeECDSA_SHA2_P256 then unmarshalECDSAKey (some key)
      else if tufPk.ktype = KeyTypeRSASSA_PSS_SHA256 then unmarshalRSAKey (some key)
      else .error ("key: unsupported private key type " ++ tufPk.ktype)

def FromPublicKey : Option TufKeyRecord → Except String (Option DecodedKey)
  | none => .error "key: invalid public key object"
  | some tufPk =>
    match decodeKeyPair tufPk.value with
    | .error e => .error ("key: unable to decode the key components: " ++ e)
    | .ok key =>
      if tufPk.ktype = KeyTypeEd25519 then unmarshalEd25519Key (some key)
      else if tufPk.ktype = KeyTypeECDSA_SHA2_P256 then unmarshalECDSAKey (some key)
      else if tufPk.ktype = KeyTypeRSASSA_PSS_SHA256 then unmarshalRSAKey (some key)
      else .error ("key: unsupported public key type " ++ tufPk.ktype)

/-! ## SHA-2 (models of `crypto/sha256` SHA-256 and `crypto/sha512` SHA-384)

The hash selected by an `ecdsaSigner` instance.  `hasher.Write` never
fails for these hashes, so hashing is total and the write-error branch
of the source is unreachable.  Words are `Nat` values reduced modulo
the word size at every step. -/

def sha256K : List Nat :=
  [1116352408, 1899447441, 3049323471, 3921009573, 961987163, 1508970993,
   2453635748, 2870763221, 3624381080, 310598401, 607225278, 1426881987,
   1925078388, 2162078206, 2614888103, 3248222580, 3835390401, 4022224774,
   264347078, 604807628, 770255983, 1249150122, 1555081692, 1996064986,
   2554220882, 2821834349, 2952996808, 3210313671, 3336571891, 3584528711,
   113926993, 338241895, 666307205, 773529912, 1294757372, 1396182291,
   1695183700, 1986661051, 2177026350, 2456956037, 2730485921, 2820302411,
   3259730800, 3345764771, 3516065817, 3600352804, 4094571909, 275423344,
   430227734, 506948616, 659060556, 883997877, 958139571, 1322822218,
   1537002063, 1747873779, 1955562222, 2024104815, 2227730452, 2361852424,
   2428436474, 2756734187, 3204031479, 3329325298]

def sha256IV : List Nat :=
  [1779033703, 3144134277, 1013904242, 2773480762,
   1359893119, 2600822924, 528734635, 1541459225]

def sha512K : List Nat :=
  [4794697086780616226, 8158064640168781261, 13096744586834688815, 16840607885511220156,
   4131703408338449720, 6480981068601479193, 10538285296894168987, 12329834152419229976,
   15566598209576043074, 1334009975649890238, 2608012711638119052, 6128411473006802146,
   8268148722764581231, 9286055187155687089, 11230858885718282805, 13951009754708518548,
   16472876342353939154, 17275323862435702243, 1135362057144423861, 2597628984639134821,
   3308224258029322869, 5365058923640841347, 6679025012923562964, 8573033837759648693,
   10970295158949994411, 12119686244451234320, 12683024718118986047, 13788192230050041572,
   14330467153632333762, 15395433587784984357, 489312712824947311, 1452737877330783856,
   2861767655752347644, 3322285676063803686, 5560940570517711597, 5996557281743188959,
   7280758554555802590, 8532644243296465576, 9350256976987008742, 10552545826968843579,
   11727347734174303076, 12113106623233404929, 14000437183269869457, 14369950271660146224,
   15101387698204529176, 15463397548674623760, 17586052441742319658, 1182934255886127544,
   1847814050463011016, 2177327727835720531, 2830643537854262169, 3796741975233480872,
   4115178125766777443, 5681478168544905931, 6601373596472566643, 7507060721942968483,
   8399075790359081724, 8693463985226723168, 9568029438360202098, 10144078919501101548,
   10430055236837252648, 11840083180663258601, 13761210420658862357, 14299343276471374635,
   14566680578165727644, 15097957966210449927, 16922976911328602910, 17689382322260857208,
   500013540394364858, 748580250866718886, 1242879168328830382, 1977374033974150939,
   2944078676154940804, 3659926193048069267, 4368137639120453308, 4836135668995329356,
   5532061633213252278, 6448918945643986474, 6902733635092675308, 7801388544844847127]

def sha384IV : List Nat :=
  [14680500436340154072, 7105036623409894663, 10473403895298186519, 1526699215303891257,
   7436329637833083697, 10282925794625328401, 15784041429090275239, 5167115440072839076]

def rotr32 (n x : Nat) : Nat := (x >>> n ||| x <<< (32 - n)) % 2 ^ 32

def rotr64 (n x : Nat) : Nat := (x >>> n ||| x <<< (64 - n)) % 2 ^ 64

def bytesToWords32 : List Nat → List Nat
  | b0 :: b1 :: b2 :: b3 :: rest =>
      (((b0 * 256 + b1) * 256 + b2) * 256 + b3) :: bytesToWords32 rest
  | _ => []

def bytesToWords64 : List Nat → List Nat
  | b0 :: b1 :: b2 :: b3 :: b4 :: b5 :: b6 :: b7 :: rest =>
      (((((((b0 * 256 + b1) * 256 + b2) * 256 + b3) * 256 + b4) * 256 + b5)
        * 256 + b6) * 256 + b7) :: bytesToWords64 rest
  | _ => []

structure Sha2State where
  a : Nat
  b : Nat
  c : Nat
  d : Nat
  e : Nat
  f : Nat
  g : Nat
  h : Nat

def sha256Extend : Nat → List Nat → List Nat
  | 0, w => w
  | fuel + 1, w =>
      let j := w.length
      let w15 := w.getD (j - 15) 0
      let w2 := w.getD (j - 2) 0
      let s0 := rotr32 7 w15 ^^^ rotr32 18 w15 ^^^ (w15 >>> 3)
      let s1 := rotr32 17 w2 ^^^ rotr32 19 w2 ^^^ (w2 >>> 10)
      sha256Extend fuel (w ++ [(w.getD (j - 16) 0 + s0 + w.getD (j - 7) 0 + s1) % 2 ^ 32])

def sha256Round (st : Sha2State) (k w : Nat) : Sha2State :=
  let s1 := rotr32 6 st.e ^^^ rotr32 11 st.e ^^^ rotr32 25 st.e
  let ch := st.e &&& st.f ^^^ (2 ^ 32 - 1 - st.e) &&& st.g
  let t1 := (st.h + s1 + ch + k + w) % 2 ^ 32
  let s0 := rotr32 2 st.a ^^^ rotr32 13 st.a ^^^ rotr32 22 st.a
  let mj := st.a &&& st.b ^^^ st.a &&& st.c ^^^ st.b &&& st.c
  let t2 := (s0 + mj) % 2 ^ 32
  ⟨(t1 + t2) % 2 ^ 32, st.a, st.b, st.c, (st.d + t1) % 2 ^ 32, st.e, st.f, st.g⟩

def sha512Round (st : Sha2State) (k w : Nat) : Sha2State :=
  let s1 := rotr64 14 st.e ^^^ rotr64 18 st.e ^^^ rotr64 41 st.e
  let ch := st.e &&& st.f ^^^ (2 ^ 64 - 1 - st.e) &&& st.g
  let t1 := (st.h + s1 + ch + k + w) % 2 ^ 64
  let s0 := rotr64 28 st.a ^^^ rotr64 34 st.a ^^^ rotr64 39 st.a
  let mj := st.a &&& st.b ^^^ st.a &&& st.c ^^^ st.b &&& st.c
  let t2 := (s0 + mj) % 2 ^ 64
  ⟨(t1 + t2) % 2 ^ 64, st.a, st.b, st.c, (st.d + t1) % 2 ^ 64, st.e, st.f, st.g⟩

def sha512Extend : Nat → List Nat → List Nat
  | 0, w => w
  | fuel + 1, w =>
      let j := w.length
      let w15 := w.getD (j - 15) 0
      let w2 := w.getD (j - 2) 0
      let s0 := rotr64 1 w15 ^^^ rotr64 8 w15 ^^^ (w15 >>> 7)
      let s1 := rotr64 19 w2 ^^^ rotr64 61 w2 ^^^ (w2 >>> 6)
      sha512Extend fuel (w ++ [(w.getD (j - 16) 0 + s0 + w.getD (j - 7) 0 + s1) % 2 ^ 64])

def sha2StateOf (hw : List Nat) : Sha2State :=
  ⟨hw.getD 0 0, hw.getD 1 0, hw.getD 2 0, hw.getD 3 0,
   hw.getD 4 0, hw.getD 5 0, hw.getD 6 0, hw.getD 7 0⟩

def sha2Merge (m : Nat) (hw : List Nat) (st : Sha2State) : List Nat :=
  [(hw.getD 0 0 + st.a) % m, (hw.getD 1 0 + st.b) % m, (hw.getD 2 0 + st.c) % m,
   (hw.getD 3 0 + st.d) % m, (hw.getD 4 0 + st.e) % m, (hw.getD 5 0 + st.f) % m,
   (hw.getD 6 0 + st.g) % m, (hw.getD 7 0 + st.h) % m]

def sha256Blocks : Nat → List Nat → List Nat → List Nat
  | 0, _, hw => hw
  | fuel + 1, data, hw =>
      let w := sha256Extend 48 (bytesToWords32 (data.take 64))
      let st := (sha256K.zip w).foldl (fun s p => sha256Round s p.1 p.2) (sha2StateOf hw)
      sha256Blocks fuel (data.drop 64) (sha2Merge (2 ^ 32) hw st)

def sha512Blocks : Nat → List Nat → List Nat → List Nat
  | 0, _, hw => hw
  | fuel + 1, data, hw =>
      let w := sha512Extend 64 (bytesToWords64 (data.take 128))
      let st := (sha512K.zip w).foldl (fun s p => sha512Round s p.1 p.2) (sha2StateOf hw)
      sha512Blocks fuel (data.drop 128) (sha2Merge (2 ^ 64) hw st)

def sha2Pad (block lenBytes : Nat) (msg : List Nat) : List Nat :=
  msg ++ [128] ++
    List.replicate ((2 * block - 1 - lenBytes - msg.length % block) % block) 0 ++
    natToBytesBE lenBytes (8 * msg.length)

def sha256Bytes (msg : List Nat) : List Nat :=
  let padded := sha2Pad 64 8 msg
  ((sha256Blocks (padded.length / 64) padded sha256IV).map (natToBytesBE 4)).flatten

def sha384Bytes (msg : List Nat) : List Nat :=
  let padded := sha2Pad 128 16 msg
  (((sha512Blocks (padded.length / 128) padded sha384IV).map (natToBytesBE 8)).flatten).take 48

/-! ## The signatures package (`pkg/signatures`)

Errors carry the sentinel kind the source wraps with `fmt.Errorf(..., %w)`
(`errors.Is` classification): `ErrInvalidArgument`, `ErrInvalidKey`,
`ErrHashUnavailable`, `ErrInvalidSignature`.

The `interface{}` key parameter is the closed set of dynamic types the
type switches inspect; pointer and value shapes of the same key carry
the same data and are not distinguished.  `nullKey` is the nil
interface; `otherKey` stands for every dynamic type none of the cases
match.

The elliptic-curve and Edwards-curve signing primitives
(`ecdsa.Sign`/`ecdsa.Verify`, `ed25519.PrivateKey.Sign`/`ed25519.Verify`)
are standard-library externals; the wrappers are parameterized by them.
`ecdsa.Sign` can fail only when the randomness source fails, which the
`Option` result models; the Ed25519 signing primitive cannot fail for a
64-byte key, so it is total and the source's wrap-and-return error
branch is unreachable. -/

inductive ErrKind where
  | invalidArgument
  | invalidKey
  | hashUnavailable
  | invalidSignature
deriving DecidableEq, Repr

inductive CryptoHash where
  | sha256
  | sha384
deriving DecidableEq, Repr

/-- Availability of the configured hash (`crypto.Hash.Available`): both
hashes the registered instances configure are linked into the binary
(`crypto/sha256` via the registry's import, `crypto/sha512` via the
`crypto/ed25519` dependency), so both report available. -/
def cryptoHashAvailable : CryptoHash → Bool := fun _ => true

/-- The digest `hasher.Write(msg); hasher.Sum(nil)` computes for the
configured hash. -/
def cryptoHashDigest : CryptoHash → List Nat → List Nat
  | .sha256, msg => sha256Bytes msg
  | .sha384, msg => sha384Bytes msg

structure EcdsaSigner where
  name : String
  hash : CryptoHash
  curveBits : Nat
  keySize : Nat
deriving DecidableEq, Repr

inductive KeyArg where
  | ecdsaPrivKey (k : EcdsaPrivKey)
  | ecdsaPubKey (k : EcdsaPubKey)
  | ed25519PrivKey (k : List Nat)
  | ed25519PubKey (k : List Nat)
  | nullKey
  | otherKey
deriving DecidableEq, Repr

/-- Model of `(*ecdsaSigner).Sign`.  `primSign pk digest` is
`ecdsa.Sign(randSource, pk, digest)`; the signing options only select
the randomness source the primitive consumes, so they are absorbed into
the primitive parameter.  Both the nil-key check and the type switch
default wrap `ErrInvalidKey`. -/
def ecdsaSignerSign (m : EcdsaSigner)
    (primSign : EcdsaPrivKey → List Nat → Option (Nat × Nat))
    (msg : List Nat) (keyA : KeyArg) : Except ErrKind (List Nat) :=
  if msg.length = 0 then .error .invalidArgument
  else
    match keyA with
    | .ecdsaPrivKey pk =>
        if m.curveBits ≠ pk.toPub.curveBits then .error .invalidKey
        else if ¬ cryptoHashAvailable m.hash then .error .hashUnavailable
        else
          match primSign pk (cryptoHashDigest m.hash msg) with
          | some (r, s) =>
              let keyBytes := m.curveBits / 8 + (if m.curveBits % 8 > 0 then 1 else 0)
              .ok (natToBytesBE keyBytes r ++ natToBytesBE keyBytes s)
          | none => .error .invalidSignature
    | _ => .error .invalidKey

/-- Model of `(*ecdsaSigner).Verify`.  `primVerify pub digest r s` is
`ecdsa.Verify(pub, digest, r, s)`.  A success is `none`; an error is
`some kind`. -/
def ecdsaSignerVerify (m : EcdsaSigner)
    (primVerify : EcdsaPubKey → List Nat → Nat → Nat → Bool)
    (msg signature : List Nat) (keyA : KeyArg) : Option ErrKind :=
  if msg.length = 0 then some .invalidArgument
  else if signature.length = 0 then some .invalidArgument
  else
    match keyA with
    | .ecdsaPubKey pub =>
        if m.curveBits ≠ pub.curveBits then some .invalidKey
        else if signature.length ≠ 2 * m.keySize then some .invalidSignature
        else
          let r := bytesToNat (signature.take m.keySize)
          let s := bytesToNat (signature.drop m.keySize)
          if ¬ cryptoHashAvailable m.hash then some .hashUnavailable
          else if primVerify pub (cryptoHashDigest m.hash msg) r s then none
          else some .invalidSignature
    | _ => some .invalidKey

/-- Model of `(*ed25519Signer).Sign`.  `primSign pk msg` is
`pk.Sign(randSource, msg, crypto.Hash(0))`, the pure (no pre-hash)
Ed25519 signature. -/
def ed25519SignerSign (primSign : List Nat → List Nat → List Nat)
    (msg : List Nat) (keyA : KeyArg) : Except ErrKind (List Nat) :=
  if msg.length = 0 then .error .invalidArgument
  else
    match keyA with
    | .ed25519PrivKey pk =>
        if pk.length ≠ ed25519PrivateKeySize then .error .invalidKey
        else .ok (primSign pk msg)
    | _ => .error .invalidKey

/-- Model of `(*ed25519Signer).Verify`.  `primVerify pub msg sig` is
`ed25519.Verify(pub, msg, sig)`. -/
def ed25519SignerVerify (primVerify : List Nat → List Nat → List Nat → Bool)
    (msg signature : List Nat) (keyA : KeyArg) : Option ErrKind :=
  if msg.length = 0 then some .invalidArgument
  else if signature.length = 0 then some .invalidArgument
  else
    match keyA with
    | .ed25519PubKey pub =>
        if pub.length ≠ ed25519PublicKeySize then some .invalidKey
        else if primVerify pub msg signature then none
        else some .invalidSignature
    | _ => some .invalidKey

/-! ## The algorithm registry (`pkg/signatures/registry.go`)

The `sync.Map` holding name → `Builder` entries is modelled as an
association list in which `RegisterAlgorithm` prepends (so the newest
entry for a name shadows older ones, matching `Store`'s overwrite) and
lookups take the first match.  Every stored value is a `Builder`, so the
type assertion inside `GetAlgorithm` always succeeds. -/

inductive AlgorithmImpl where
  | ed25519Alg
  | ecdsaAlg (m : EcdsaSigner)
deriving DecidableEq, Repr

/-- The `Name()` method of an algorithm implementation. -/
def AlgorithmImpl.algName : AlgorithmImpl → String
  | .ed25519Alg => "ed25519"
  | .ecdsaAlg m => m.name

abbrev Builder := Unit → AlgorithmImpl

abbrev Registry := List (String × Builder)

def RegisterAlgorithm (r : Registry) (nm : String) (b : Builder) : Registry :=
  (nm, b) :: r

/-- Model of `GetAlgorithm`: a found builder is invoked; an unknown name
yields `none` (the source's nil). -/
def GetAlgorithm (r : Registry) (nm : String) : Option AlgorithmImpl :=
  (r.lookup nm).map fun b => b ()

def ecdsaP256Inst : EcdsaSigner := ⟨"ecdsa-sha2-nistp256", .sha256, 256, 32⟩

def ecdsaP384Inst : EcdsaSigner := ⟨"ecdsa-sha384-nistp384", .sha384, 384, 48⟩

/-- The registry as `init()` populates it (registration order preserved;
each builder returns the package-level singleton, here the value it
closes over). -/
def initRegistry : Registry :=
  RegisterAlgorithm
    (RegisterAlgorithm
      (RegisterAlgorithm [] "ed25519" fun _ => .ed25519Alg)
      "ecdsa-sha2-nistp256" fun _ => .ecdsaAlg ecdsaP256Inst)
    "ecdsa-sha384-nistp384" fun _ => .ecdsaAlg ecdsaP384Inst

/-! ## Concrete inputs used by the proofs

These are the repository's own test vectors: the JSON value of the spec's
public-only Ed25519 record, the JSON value of the matching private
record, a minimal RSA-typed record value, the uncompressed encoding of
the P-256 base point and the 32-byte big-endian encoding of the scalar
one. -/

/-- Bytes of the spec vector record value
`{"public":"lYlkLRyJC0UuPECEqqGUBaDHj8qJ+GLjZs7TRwKhGcY="}`. -/
def specPubJsonValue : List Nat :=
  [123, 34, 112, 117, 98, 108, 105, 99, 34, 58, 34, 108, 89, 108, 107, 76,
   82, 121, 74, 67, 48, 85, 117, 80, 69, 67, 69, 113, 113, 71, 85, 66,
   97, 68, 72, 106, 56, 113, 74, 43, 71, 76, 106, 90, 115, 55, 84, 82,
   119, 75, 104, 71, 99, 89, 61, 34, 125]

/-- Bytes of the repository test's private record value: the same public
field plus `"private"` holding the base64 of the 64-byte private key
(seed followed by the derived public key). -/
def specPrivJsonValue : List Nat :=
  [123, 34, 112, 117, 98, 108, 105, 99, 34, 58, 34, 108, 89, 108, 107, 76,
   82, 121, 74, 67, 48, 85, 117, 80, 69, 67, 69, 113, 113, 71, 85, 66,
   97, 68, 72, 106, 56, 113, 74, 43, 71, 76, 106, 90, 115, 55, 84, 82,
   119, 75, 104, 71, 99, 89, 61, 34, 44, 34, 112, 114, 105, 118, 97, 116,
   101, 34, 58, 34, 77, 122, 73, 116, 89, 50, 104, 104, 99, 109, 70, 106,
   100, 71, 86, 121, 99, 121, 49, 107, 90, 88, 82, 108, 99, 109, 49, 112,
   98, 109, 108, 122, 100, 71, 108, 106, 76, 88, 78, 108, 90, 87, 83, 86,
   105, 87, 81, 116, 72, 73, 107, 76, 82, 83, 52, 56, 81, 73, 83, 113,
   111, 90, 81, 70, 111, 77, 101, 80, 121, 111, 110, 52, 89, 117, 78, 109,
   122, 116, 78, 72, 65, 113, 69, 90, 120, 103, 61, 61, 34, 125]

/-- Bytes of `{"public":"AAAA"}` (a well-formed envelope whose public
field decodes to three zero bytes). -/
def rsaJsonValue : List Nat :=
  [123, 34, 112, 117, 98, 108, 105, 99, 34, 58, 34, 65, 65, 65, 65, 34, 125]

/-- The 64-byte Ed25519 private key of the spec vector:
seed bytes followed by the derived public key. -/
def edPrivVector : List Nat := specSeedBytes ++ specPubBytes

/-- Uncompressed (tag 4) encoding of the P-256 base point. -/
def marshalG : List Nat :=
  [4, 107, 23, 209, 242, 225, 44, 66, 71, 248, 188, 230, 229, 99, 164, 64,
   242, 119, 3, 125, 129, 45, 235, 51, 160, 244, 161, 57, 69, 216, 152, 194,
   150, 79, 227, 66, 226, 254, 26, 127, 155, 142, 231, 235, 74, 124, 15, 158,
   22, 43, 206, 51, 87, 107, 49, 94, 206, 203, 182, 64, 104, 55, 191, 81, 245]

/-- The 32-byte big-endian encoding of the scalar 1. -/
def dOneBytes : List Nat := List.replicate 31 0 ++ [1]

/-- An oversized record value: the spec vector's envelope followed by
`MaxKeyInputSize` bytes of trailing spaces, so the total length strictly
exceeds `MaxKeyInputSize` while the JSON value itself lies entirely
inside the first `MaxKeyInputSize` bytes. -/
def oversizedValue : List Nat := specPubJsonValue ++ List.replicate MaxKeyInputSize 32

/-! ## Theorems -/

/-- C1: the claim states that for RSA-typed key records
(`"rsassa-pss-sha256"`) both decode entry points return an explicit
"unsupported key type" error and never succeed with an absent key.  The
code does the opposite: `unmarshalRSAKey` ends in `return nil, nil`, so
on a well-formed RSA-typed record both `FromPrivateKey` and
`FromPublicKey` succeed carrying a nil key — the very outcome the claim
(and the spec's stated intent for a reimplementation) rules out. -/
theorem C1_rsa_record_null_success :
    FromPrivateKey (some ⟨KeyTypeRSASSA_PSS_SHA256, rsaJsonValue⟩) = .ok none ∧
    FromPublicKey (some ⟨KeyTypeRSASSA_PSS_SHA256, rsaJsonValue⟩) = .ok none := by
  constructor <;> decide

/-- C5: an Ed25519 key record whose 32-byte public key is one of the
blacklisted low-order points fails to decode with the blacklist error
and is never accepted. -/
theorem C5_low_order_rejected (kp : JsonKeyPair)
    (hlen : kp.pub.length = ed25519PublicKeySize)
    (hlow : isEdLowOrder kp.pub = true) :
    unmarshalEd25519Key (some kp) = .error "key: the public key is blacklisted" := by
  simp [unmarshalEd25519Key, hlen, hlow]

/-- C5 witness: the all-zero public key (an order-four point encoding on
the blacklist) is rejected. -/
theorem C5_low_order_rejected_witness :
    unmarshalEd25519Key (some ⟨List.replicate 32 0, none⟩) =
      .error "key: the public key is blacklisted" :=
  C5_low_order_rejected ⟨List.replicate 32 0, none⟩ (by decide) (by decide)

/-- C9: registry resolution of an unregistered name is the explicit
absent result (`none`), never an error or a crash — `GetAlgorithm` is a
total function into `Option` — and resolution of a registered name
invokes the stored builder on every lookup and returns its result; the
registered names resolve to the three algorithm instances `init`
registers.  (Object identity/freshness across lookups is not observable
in a value model; the theorem shows each lookup re-invokes the stored
factory.) -/
theorem C9_registry_resolution :
    (∀ (r : Registry) (nm : String), r.lookup nm = none → GetAlgorithm r nm = none) ∧
    (∀ (r : Registry) (nm : String) (b : Builder),
        r.lookup nm = some b → GetAlgorithm r nm = some (b ())) ∧
    GetAlgorithm initRegistry "not-existent" = none ∧
    GetAlgorithm initRegistry "ed25519" = some .ed25519Alg ∧
    GetAlgorithm initRegistry "ecdsa-sha2-nistp256" = some (.ecdsaAlg ecdsaP256Inst) ∧
    GetAlgorithm initRegistry "ecdsa-sha384-nistp384" = some (.ecdsaAlg ecdsaP384Inst) := by
  refine ⟨?_, ?_, ?_, ?_, ?_, ?_⟩
  · intro r nm h; simp [GetAlgorithm, h]
  · intro r nm b h; simp [GetAlgorithm, h]
  · rfl
  · rfl
  · rfl
  · rfl

/-- C9 witness: the two universally quantified parts applied at the
initial registry (unknown name) and at a one-entry registry (found
builder). -/
theorem C9_registry_resolution_witness :
    GetAlgorithm initRegistry "not-existent" = none ∧
    GetAlgorithm [("x", fun _ => AlgorithmImpl.ed25519Alg)] "x" =
      some AlgorithmImpl.ed25519Alg :=
  ⟨C9_registry_resolution.1 initRegistry "not-existent" rfl,
   C9_registry_resolution.2.1 [("x", fun _ => AlgorithmImpl.ed25519Alg)] "x"
     (fun _ => AlgorithmImpl.ed25519Alg) rfl⟩

/-- C8 counterexample: the claim says a nil key is rejected with the
`InvalidArgument` kind; the code wraps a nil key with `ErrInvalidKey`
(here for the Ed25519 signer at message "test"), and the two kinds are
distinct. -/
theorem C8_counterexample :
    ed25519SignerSign (fun _ _ => []) [116, 101, 115, 116] .nullKey =
      .error .invalidKey ∧
    ErrKind.invalidKey ≠ ErrKind.invalidArgument := by
  exact ⟨rfl, by decide⟩

/-- C8 (amended): for every Sign call (ECDSA and Ed25519 alike), an
empty/nil message is rejected with the `ErrInvalidArgument` kind, and an
absent (nil) key is rejected with the `ErrInvalidKey` kind (not
`ErrInvalidArgument` as the claim stated), both before any cryptographic
operation runs — the equations hold for every signing primitive, which
is therefore never consulted. -/
theorem C8_amended :
    (∀ (m : EcdsaSigner) (primSign : EcdsaPrivKey → List Nat → Option (Nat × Nat))
        (keyA : KeyArg),
        ecdsaSignerSign m primSign [] keyA = .error .invalidArgument) ∧
    (∀ (m : EcdsaSigner) (primSign : EcdsaPrivKey → List Nat → Option (Nat × Nat))
        (msg : List Nat), msg ≠ [] →
        ecdsaSignerSign m primSign msg .nullKey = .error .invalidKey) ∧
    (∀ (primSign : List Nat → List Nat → List Nat) (keyA : KeyArg),
        ed25519SignerSign primSign [] keyA = .error .invalidArgument) ∧
    (∀ (primSign : List Nat → List Nat → List Nat) (msg : List Nat), msg ≠ [] →
        ed25519SignerSign primSign msg .nullKey = .error .invalidKey) := by
  refine ⟨?_, ?_, ?_, ?_⟩
  · intro m primSign keyA; rfl
  · intro m primSign msg h
    simp [ecdsaSignerSign, List.length_eq_zero, h]
  · intro primSign keyA; rfl
  · intro primSign msg h
    simp [ed25519SignerSign, List.length_eq_zero, h]

/-- C8 witness: the amended theorem applied at the P-256 instance and
the Ed25519 signer, with the message "t" and concrete primitives. -/
theorem C8_amended_witness :
    ecdsaSignerSign ecdsaP256Inst (fun _ _ => some (1, 1)) [] .nullKey =
      .error .invalidArgument ∧
    ecdsaSignerSign ecdsaP256Inst (fun _ _ => some (1, 1)) [116] .nullKey =
      .error .invalidKey ∧
    ed25519SignerSign (fun _ _ => []) [] .nullKey = .error .invalidArgument ∧
    ed25519SignerSign (fun _ _ => []) [116] .nullKey = .error .invalidKey :=
  ⟨C8_amended.1 ecdsaP256Inst (fun _ _ => some (1, 1)) .nullKey,
   C8_amended.2.1 ecdsaP256Inst (fun _ _ => some (1, 1)) [116] (by decide),
   C8_amended.2.2.1 (fun _ _ => []) .nullKey,
   C8_amended.2.2.2 (fun _ _ => []) [116] (by decide)⟩

/-- C4: ECDSA key decoding fails whenever the public bytes start with a
tag byte other than 2, 3 or 4; and no off-curve point is ever returned —
every successfully decoded ECDSA public key (alone or inside a private
key) satisfies the P-256 curve-membership check. -/
theorem C4_encoding_and_off_curve_rejected :
    (∀ (kp : JsonKeyPair) (b : Nat) (bs : List Nat), kp.pub = b :: bs →
        b ≠ 2 → b ≠ 3 → b ≠ 4 →
        unmarshalECDSAKey (some kp) =
          .error "key: unsupported ecdsa public key encoding") ∧
    (∀ (kp : JsonKeyPair) (k : EcdsaPubKey),
        unmarshalECDSAKey (some kp) = .ok (some (.ecdsaPub k)) →
        p256IsOnCurve k.x k.y = true) ∧
    (∀ (kp : JsonKeyPair) (k : EcdsaPrivKey),
        unmarshalECDSAKey (some kp) = .ok (some (.ecdsaPriv k)) →
        p256IsOnCurve k.toPub.x k.toPub.y = true) := by
  refine ⟨?_, ?_, ?_⟩
  · intro kp b bs hpub h2 h3 h4
    simp only [unmarshalECDSAKey, hpub]
    simp [h2, h3, h4]
  · intro kp k h
    rcases hpub : kp.pub with _ | ⟨c, rest⟩ <;>
      simp only [unmarshalECDSAKey, hpub] at h
    · exact absurd h (by simp)
    · by_cases htag : c = 2 ∨ c = 3 ∨ c = 4
      · rw [if_pos htag] at h
        rcases hu : (if c = 4 then ellipticUnmarshal (c :: rest)
            else ellipticUnmarshalCompressed (c :: rest)) with _ | ⟨x, y⟩ <;>
          rw [hu] at h
        · exact absurd h (by simp)
        · rcases hkp : kp.priv with _ | pb <;> simp only [hkp] at h
          · split_ifs at h with hcurve
            simp only [Except.ok.injEq, Option.some.injEq,
              DecodedKey.ecdsaPub.injEq] at h
            subst h
            exact hcurve
          · split_ifs at h <;> simp at h
      · rw [if_neg htag] at h
        exact absurd h (by simp)
  · intro kp k h
    rcases hpub : kp.pub with _ | ⟨c, rest⟩ <;>
      simp only [unmarshalECDSAKey, hpub] at h
    · exact absurd h (by simp)
    · by_cases htag : c = 2 ∨ c = 3 ∨ c = 4
      · rw [if_pos htag] at h
        rcases hu : (if c = 4 then ellipticUnmarshal (c :: rest)
            else ellipticUnmarshalCompressed (c :: rest)) with _ | ⟨x, y⟩ <;>
          rw [hu] at h
        · exact absurd h (by simp)
        · rcases hkp : kp.priv with _ | pb <;> simp only [hkp] at h
          · split_ifs at h <;> simp at h
          · split_ifs at h with hcurve h5 h6
            simp only [Except.ok.injEq, Option.some.injEq,
              DecodedKey.ecdsaPriv.injEq] at h
            subst h
            exact hcurve
      · rw [if_neg htag] at h
        exact absurd h (by simp)

/-- C4 witness: a leading byte 5 is rejected as an unsupported encoding,
and the decoded base-point record certifies the on-curve conclusion at a
successful decode. -/
theorem C4_encoding_and_off_curve_rejected_witness :
    unmarshalECDSAKey (some ⟨5 :: List.replicate 64 0, none⟩) =
      .error "key: unsupported ecdsa public key encoding" ∧
    p256IsOnCurve p256Gx p256Gy = true :=
  ⟨C4_encoding_and_off_curve_rejected.1 ⟨5 :: List.replicate 64 0, none⟩ 5
      (List.replicate 64 0) rfl (by decide) (by decide) (by decide),
   C4_encoding_and_off_curve_rejected.2.1 ⟨marshalG, none⟩ ⟨256, p256Gx, p256Gy⟩
      (by decide)⟩

/-- C2 counterexample: the claim states that for every decoded Ed25519
private key the public key embedded in its last 32 bytes equals the
public key derived from the private key.  The decoder only compares the
derived key against the declared `public` field and returns the private
bytes untouched, so a 64-byte private value whose seed matches the
declared public key but whose last 32 bytes are garbage (here zeros) is
accepted silently, with embedded suffix ≠ derived public key. -/
theorem C2_counterexample :
    unmarshalEd25519Key
        (some ⟨specPubBytes, some (specSeedBytes ++ List.replicate 32 0)⟩) =
      .ok (some (.ed25519Priv (specSeedBytes ++ List.replicate 32 0))) ∧
    (specSeedBytes ++ List.replicate 32 0).drop 32 ≠
      ed25519DerivePub ((specSeedBytes ++ List.replicate 32 0).take 32) := by
  constructor <;> decide

/-- C2 (amended): a decoded ECDSA private key is mathematically
consistent — its public point equals scalar·G of the returned scalar
bytes; a decoded Ed25519 private key's declared public key equals the
key derived from the private value's 32-byte seed, and a mismatch
between the derived and declared keys is a decode-time error.  (The
last 32 bytes of the returned Ed25519 private key are returned as-is
and are not themselves checked against the derived key.) -/
theorem C2_amended :
    (∀ (kp : JsonKeyPair) (pb : List Nat),
        unmarshalEd25519Key (some kp) = .ok (some (.ed25519Priv pb)) →
        kp.priv = some pb ∧ ed25519DerivePub (pb.take 32) = kp.pub) ∧
    (∀ (kp : JsonKeyPair) (pb : List Nat), kp.priv = some pb →
        ed25519DerivePub (pb.take 32) ≠ kp.pub →
        ∃ e, unmarshalEd25519Key (some kp) = .error e) ∧
    (∀ (kp : JsonKeyPair) (k : EcdsaPrivKey),
        unmarshalECDSAKey (some kp) = .ok (some (.ecdsaPriv k)) →
        ∃ pb, kp.priv = some pb ∧ k.d = bytesToNat pb ∧
          p256ScalarBaseMult pb = (k.toPub.x, k.toPub.y)) := by
  refine ⟨?_, ?_, ?_⟩
  · intro kp pb h
    rcases hkp : kp.priv with _ | pb2 <;> simp only [unmarshalEd25519Key, hkp] at h
    · split_ifs at h <;> simp at h
    · split_ifs at h with h1 h2 h3 h4
      simp only [Except.ok.injEq, Option.some.injEq,
        DecodedKey.ed25519Priv.injEq] at h
      subst h
      exact ⟨rfl, not_not.mp h4⟩
  · intro kp pb hpriv hmismatch
    simp only [unmarshalEd25519Key, hpriv]
    split_ifs <;> exact ⟨_, rfl⟩
  · intro kp k h
    rcases hpub : kp.pub with _ | ⟨c, rest⟩ <;>
      simp only [unmarshalECDSAKey, hpub] at h
    · exact absurd h (by simp)
    · by_cases htag : c = 2 ∨ c = 3 ∨ c = 4
      · rw [if_pos htag] at h
        rcases hu : (if c = 4 then ellipticUnmarshal (c :: rest)
            else ellipticUnmarshalCompressed (c :: rest)) with _ | ⟨x, y⟩ <;>
          rw [hu] at h
        · exact absurd h (by simp)
        · rcases hkp : kp.priv with _ | pb <;> simp only [hkp] at h
          · split_ifs at h <;> simp at h
          · split_ifs at h with hcurve h5 h6
            simp only [Except.ok.injEq, Option.some.injEq,
              DecodedKey.ecdsaPriv.injEq] at h
            subst h
            obtain ⟨hx, hy⟩ := not_or.mp h6
            exact ⟨pb, rfl, rfl, Prod.ext (not_not.mp hx) (not_not.mp hy)⟩
      · rw [if_neg htag] at h
        exact absurd h (by simp)

/-- C2 witness: the amended theorem applied at the spec's Ed25519 key
pair (successful decode), at a record declaring a mismatching public key
(decode error), and at the P-256 record of the base point with scalar
one (successful ECDSA decode). -/
theorem C2_amended_witness :
    ((⟨specPubBytes, some edPrivVector⟩ : JsonKeyPair).priv = some edPrivVector ∧
      ed25519DerivePub (edPrivVector.take 32) = specPubBytes) ∧
    (∃ e, unmarshalEd25519Key
        (some ⟨List.replicate 32 1, some edPrivVector⟩) = .error e) ∧
    (∃ pb, (⟨marshalG, some dOneBytes⟩ : JsonKeyPair).priv = some pb ∧
      (⟨⟨256, p256Gx, p256Gy⟩, 1⟩ : EcdsaPrivKey).d = bytesToNat pb ∧
      p256ScalarBaseMult pb = (p256Gx, p256Gy)) :=
  ⟨C2_amended.1 ⟨specPubBytes, some edPrivVector⟩ edPrivVector (by decide),
   C2_amended.2.1 ⟨List.replicate 32 1, some edPrivVector⟩ edPrivVector rfl (by decide),
   C2_amended.2.2 ⟨marshalG, some dOneBytes⟩ ⟨⟨256, p256Gx, p256Gy⟩, 1⟩ (by decide)⟩

set_option maxRecDepth 40000 in
/-- C3 counterexample: the claim states that every record value longer
than `MaxKeyInputSize` fails to decode regardless of its content.  A
value consisting of the spec vector's valid envelope followed by 1 MiB
of padding is strictly longer than `MaxKeyInputSize`, yet decodes
successfully. -/
theorem C3_counterexample :
    MaxKeyInputSize < oversizedValue.length ∧
    FromPublicKey (some ⟨KeyTypeEd25519, oversizedValue⟩) =
      .ok (some (.ed25519Pub specPubBytes)) := by
  constructor
  · have h57 : specPubJsonValue.length = 57 := rfl
    simp only [oversizedValue, List.length_append, List.length_replicate, h57]
    omega
  · decide

/-- C3 (amended): the decoder truncates rather than rejects: decoding a
record equals decoding the record with its value truncated to the first
`MaxKeyInputSize` bytes — so an oversized value fails to decode exactly
when its JSON envelope does not fit inside that prefix, and content
before the bound is still parsed. -/
theorem C3_amended (rec : TufKeyRecord) :
    FromPrivateKey (some rec) =
      FromPrivateKey (some ⟨rec.ktype, rec.value.take MaxKeyInputSize⟩) ∧
    FromPublicKey (some rec) =
      FromPublicKey (some ⟨rec.ktype, rec.value.take MaxKeyInputSize⟩) := by
  have hd : decodeKeyPair rec.value = decodeKeyPair (rec.value.take MaxKeyInputSize) := by
    rw [decodeKeyPair, decodeKeyPair]
    exact prun_take MaxKeyInputSize rec.value .start
  constructor <;> simp only [FromPrivateKey, FromPublicKey, hd]

/-- The successful payload of a decode result (`none` for an error). -/
def okValue {ε α : Type} : Except ε α → Option α
  | .ok a => some a
  | .error _ => none

theorem okValue_eq_some {ε α : Type} {e : Except ε α} {a : α} :
    okValue e = some a ↔ e = .ok a := by
  cases e <;> simp [okValue]

set_option maxRecDepth 40000 in
/-- C10: on records with identical type and value, `FromPrivateKey` and
`FromPublicKey` agree — one succeeds exactly when the other does, and
successful results are equal; in particular `FromPublicKey` returns a
private key when the record carries a private component, and
`FromPrivateKey` succeeds on a public-only record. -/
theorem C10_decode_entry_points_agree :
    (∀ rec : TufKeyRecord,
        okValue (FromPrivateKey (some rec)) = okValue (FromPublicKey (some rec))) ∧
    (∀ rec : TufKeyRecord,
        (∃ k, FromPrivateKey (some rec) = .ok k) ↔
          (∃ k, FromPublicKey (some rec) = .ok k)) ∧
    FromPublicKey (some ⟨KeyTypeEd25519, specPrivJsonValue⟩) =
      .ok (some (.ed25519Priv edPrivVector)) ∧
    FromPrivateKey (some ⟨KeyTypeEd25519, specPubJsonValue⟩) =
      .ok (some (.ed25519Pub specPubBytes)) := by
  have hagree : ∀ rec : TufKeyRecord,
      okValue (FromPrivateKey (some rec)) = okValue (FromPublicKey (some rec)) := by
    intro rec
    simp only [FromPrivateKey, FromPublicKey]
    cases hd : decodeKeyPair rec.value
    · simp [okValue]
    · split_ifs <;> rfl
  refine ⟨hagree, ?_, by decide, by decide⟩
  intro rec
  constructor
  · rintro ⟨k, hk⟩
    exact ⟨k, okValue_eq_some.mp (by rw [← hagree rec]; exact okValue_eq_some.mpr hk)⟩
  · rintro ⟨k, hk⟩
    exact ⟨k, okValue_eq_some.mp (by rw [hagree rec]; exact okValue_eq_some.mpr hk)⟩

theorem keyBytes_eq (k : Nat) : 8 * k / 8 + (if 8 * k % 8 > 0 then 1 else 0) = k := by
  rw [if_neg (by omega)]
  omega

/-- A successful ECDSA sign call produces the left-zero-padded
big-endian concatenation `r ‖ s` with each half `keySize` bytes. -/
theorem ecdsaSign_ok (m : EcdsaSigner)
    (primSign : EcdsaPrivKey → List Nat → Option (Nat × Nat))
    (msg : List Nat) (pk : EcdsaPrivKey) (r s : Nat)
    (hmsg : msg ≠ [])
    (hcurve : m.curveBits = pk.toPub.curveBits)
    (hbytes : m.curveBits = 8 * m.keySize)
    (hp : primSign pk (cryptoHashDigest m.hash msg) = some (r, s)) :
    ecdsaSignerSign m primSign msg (.ecdsaPrivKey pk) =
      .ok (natToBytesBE m.keySize r ++ natToBytesBE m.keySize s) := by
  have hlen : msg.length ≠ 0 := by simpa [List.length_eq_zero] using hmsg
  have hc2 : pk.toPub.curveBits = 8 * m.keySize := by rw [← hcurve, hbytes]
  simp [ecdsaSignerSign, hlen, hcurve, cryptoHashAvailable, hp, hc2, keyBytes_eq]

/-- An ECDSA verify call with an otherwise valid argument list rejects
any signature whose length differs from `2 · keySize` as an invalid
signature. -/
theorem ecdsaVerify_len_reject (m : EcdsaSigner)
    (primVerify : EcdsaPubKey → List Nat → Nat → Nat → Bool)
    (msg sig : List Nat) (pub : EcdsaPubKey)
    (hmsg : msg ≠ []) (hsig : sig ≠ [])
    (hcurve : m.curveBits = pub.curveBits)
    (hlen : sig.length ≠ 2 * m.keySize) :
    ecdsaSignerVerify m primVerify msg sig (.ecdsaPubKey pub) =
      some .invalidSignature := by
  have h1 : msg.length ≠ 0 := by simpa [List.length_eq_zero] using hmsg
  have h2 : sig.length ≠ 0 := by simpa [List.length_eq_zero] using hsig
  simp [ecdsaSignerVerify, h1, h2, hcurve, hlen]

/-- An ECDSA verify call with a correctly sized signature splits it at
`keySize` into big-endian `r` and `s` and reduces to the primitive
verification of the digest. -/
theorem ecdsaVerify_split (m : EcdsaSigner)
    (primVerify : EcdsaPubKey → List Nat → Nat → Nat → Bool)
    (msg sig : List Nat) (pub : EcdsaPubKey)
    (hmsg : msg ≠ []) (hsig : sig ≠ [])
    (hcurve : m.curveBits = pub.curveBits)
    (hks : m.keySize ≠ 0)
    (hlen : sig.length = 2 * m.keySize) :
    ecdsaSignerVerify m primVerify msg sig (.ecdsaPubKey pub) =
      (if primVerify pub (cryptoHashDigest m.hash msg)
          (bytesToNat (sig.take m.keySize)) (bytesToNat (sig.drop m.keySize))
       then none else some .invalidSignature) := by
  have h1 : msg.length ≠ 0 := by simpa [List.length_eq_zero] using hmsg
  have h2 : sig.length ≠ 0 := by simpa [List.length_eq_zero] using hsig
  simp [ecdsaSignerVerify, h1, h2, hcurve, hlen, hks, cryptoHashAvailable]

/-- Wrapper-level ECDSA sign/verify round trip, for any primitive pair
satisfying the standard-library contract on the key pair (signatures
verify under the paired public key, with components below the group
order and hence below `256 ^ keySize`). -/
theorem ecdsa_roundtrip (m : EcdsaSigner)
    (primSign : EcdsaPrivKey → List Nat → Option (Nat × Nat))
    (primVerify : EcdsaPubKey → List Nat → Nat → Nat → Bool)
    (pk : EcdsaPrivKey) (msg : List Nat)
    (hmsg : msg ≠ [])
    (hcurve : m.curveBits = pk.toPub.curveBits)
    (hbytes : m.curveBits = 8 * m.keySize)
    (hks : m.keySize ≠ 0)
    (hcontract : ∀ digest r s, primSign pk digest = some (r, s) →
        r < 256 ^ m.keySize ∧ s < 256 ^ m.keySize ∧
          primVerify pk.toPub digest r s = true)
    (htotal : primSign pk (cryptoHashDigest m.hash msg) ≠ none) :
    ∃ sig, ecdsaSignerSign m primSign msg (.ecdsaPrivKey pk) = .ok sig ∧
      ecdsaSignerVerify m primVerify msg sig (.ecdsaPubKey pk.toPub) = none := by
  obtain ⟨⟨r, s⟩, hp⟩ := Option.ne_none_iff_exists'.mp htotal
  obtain ⟨hr, hs, hv⟩ := hcontract _ r s hp
  refine ⟨natToBytesBE m.keySize r ++ natToBytesBE m.keySize s,
    ecdsaSign_ok m primSign msg pk r s hmsg hcurve hbytes hp, ?_⟩
  have hsig_len :
      (natToBytesBE m.keySize r ++ natToBytesBE m.keySize s).length = 2 * m.keySize := by
    simp [natToBytesBE_length]
    omega
  have hsig_ne : natToBytesBE m.keySize r ++ natToBytesBE m.keySize s ≠ [] := by
    intro hemp
    have := congrArg List.length hemp
    rw [hsig_len] at this
    simp at this
    omega
  rw [ecdsaVerify_split m primVerify msg _ pk.toPub hmsg hsig_ne hcurve hks hsig_len]
  rw [List.take_left' (natToBytesBE_length _ _), List.drop_left' (natToBytesBE_length _ _)]
  rw [bytesToNat_natToBytesBE hr, bytesToNat_natToBytesBE hs, hv]
  simp

set_option maxHeartbeats 1000000 in
/-- C7: a successful ECDSA sign returns exactly `2 · keySize` bytes
(`keySize` = 32 for the P-256 instance, 48 for the P-384 instance): the
first `keySize` bytes are `r` big-endian and zero-padded on the left,
the last `keySize` bytes are `s` likewise; and ECDSA verify splits a
signature at the same boundary into big-endian `r` and `s`, rejecting
any signature of a different length as an invalid signature. -/
theorem C7_signature_format :
    (∀ (primSign : EcdsaPrivKey → List Nat → Option (Nat × Nat))
        (msg : List Nat) (pk : EcdsaPrivKey) (r s : Nat), msg ≠ [] →
        pk.toPub.curveBits = 256 →
        primSign pk (cryptoHashDigest CryptoHash.sha256 msg) = some (r, s) →
        ecdsaSignerSign ecdsaP256Inst primSign msg (.ecdsaPrivKey pk) =
          .ok (natToBytesBE 32 r ++ natToBytesBE 32 s) ∧
        (natToBytesBE 32 r ++ natToBytesBE 32 s).length = 2 * 32 ∧
        (r < 256 ^ 32 →
          bytesToNat ((natToBytesBE 32 r ++ natToBytesBE 32 s).take 32) = r) ∧
        (s < 256 ^ 32 →
          bytesToNat ((natToBytesBE 32 r ++ natToBytesBE 32 s).drop 32) = s)) ∧
    (∀ (primVerify : EcdsaPubKey → List Nat → Nat → Nat → Bool)
        (msg sig : List Nat) (pub : EcdsaPubKey), msg ≠ [] → sig ≠ [] →
        pub.curveBits = 256 → sig.length ≠ 2 * 32 →
        ecdsaSignerVerify ecdsaP256Inst primVerify msg sig (.ecdsaPubKey pub) =
          some .invalidSignature) ∧
    (∀ (primVerify : EcdsaPubKey → List Nat → Nat → Nat → Bool)
        (msg sig : List Nat) (pub : EcdsaPubKey), msg ≠ [] → sig ≠ [] →
        pub.curveBits = 256 → sig.length = 2 * 32 →
        ecdsaSignerVerify ecdsaP256Inst primVerify msg sig (.ecdsaPubKey pub) =
          (if primVerify pub (cryptoHashDigest CryptoHash.sha256 msg)
              (bytesToNat (sig.take 32)) (bytesToNat (sig.drop 32))
           then none else some .invalidSignature)) ∧
    (∀ (primSign : EcdsaPrivKey → List Nat → Option (Nat × Nat))
        (msg : List Nat) (pk : EcdsaPrivKey) (r s : Nat), msg ≠ [] →
        pk.toPub.curveBits = 384 →
        primSign pk (cryptoHashDigest CryptoHash.sha384 msg) = some (r, s) →
        ecdsaSignerSign ecdsaP384Inst primSign msg (.ecdsaPrivKey pk) =
          .ok (natToBytesBE 48 r ++ natToBytesBE 48 s) ∧
        (natToBytesBE 48 r ++ natToBytesBE 48 s).length = 2 * 48 ∧
        (r < 256 ^ 48 →
          bytesToNat ((natToBytesBE 48 r ++ natToBytesBE 48 s).take 48) = r) ∧
        (s < 256 ^ 48 →
          bytesToNat ((natToBytesBE 48 r ++ natToBytesBE 48 s).drop 48) = s)) ∧
    (∀ (primVerify : EcdsaPubKey → List Nat → Nat → Nat → Bool)
        (msg sig : List Nat) (pub : EcdsaPubKey), msg ≠ [] → sig ≠ [] →
        pub.curveBits = 384 → sig.length ≠ 2 * 48 →
        ecdsaSignerVerify ecdsaP384Inst primVerify msg sig (.ecdsaPubKey pub) =
          some .invalidSignature) ∧
    (∀ (primVerify : EcdsaPubKey → List Nat → Nat → Nat → Bool)
        (msg sig : List Nat) (pub : EcdsaPubKey), msg ≠ [] → sig ≠ [] →
        pub.curveBits = 384 → sig.length = 2 * 48 →
        ecdsaSignerVerify ecdsaP384Inst primVerify msg sig (.ecdsaPubKey pub) =
          (if primVerify pub (cryptoHashDigest CryptoHash.sha384 msg)
              (bytesToNat (sig.take 48)) (bytesToNat (sig.drop 48))
           then none else some .invalidSignature)) := by
  refine ⟨?_, ?_, ?_, ?_, ?_, ?_⟩
  · intro primSign msg pk r s hmsg hcv hp
    exact ⟨ecdsaSign_ok ecdsaP256Inst primSign msg pk r s hmsg (by rw [hcv]; rfl) rfl hp,
      by simp [natToBytesBE_length],
      fun hr => by
        rw [List.take_left' (natToBytesBE_length _ _), bytesToNat_natToBytesBE hr],
      fun hs => by
        rw [List.drop_left' (natToBytesBE_length _ _), bytesToNat_natToBytesBE hs]⟩
  · intro primVerify msg sig pub hmsg hsig hcv hlen
    exact ecdsaVerify_len_reject ecdsaP256Inst primVerify msg sig pub hmsg hsig
      (by rw [hcv]; rfl) hlen
  · intro primVerify msg sig pub hmsg hsig hcv hlen
    exact ecdsaVerify_split ecdsaP256Inst primVerify msg sig pub hmsg hsig
      (by rw [hcv]; rfl) (by decide) hlen
  · intro primSign msg pk r s hmsg hcv hp
    exact ⟨ecdsaSign_ok ecdsaP384Inst primSign msg pk r s hmsg (by rw [hcv]; rfl) rfl hp,
      by simp [natToBytesBE_length],
      fun hr => by
        rw [List.take_left' (natToBytesBE_length _ _), bytesToNat_natToBytesBE hr],
      fun hs => by
        rw [List.drop_left' (natToBytesBE_length _ _), bytesToNat_natToBytesBE hs]⟩
  · intro primVerify msg sig pub hmsg hsig hcv hlen
    exact ecdsaVerify_len_reject ecdsaP384Inst primVerify msg sig pub hmsg hsig
      (by rw [hcv]; rfl) hlen
  · intro primVerify msg sig pub hmsg hsig hcv hlen
    exact ecdsaVerify_split ecdsaP384Inst primVerify msg sig pub hmsg hsig
      (by rw [hcv]; rfl) (by decide) hlen

/-- C7 witness: the format conclusions at the P-256 and P-384 instances
with a constant primitive returning `(1, 1)`, the message "t", the
base-point key and concrete wrong-length and right-length signatures. -/
theorem C7_signature_format_witness :
    (ecdsaSignerSign ecdsaP256Inst (fun _ _ => some (1, 1)) [116]
        (.ecdsaPrivKey ⟨⟨256, p256Gx, p256Gy⟩, 1⟩) =
      .ok (natToBytesBE 32 1 ++ natToBytesBE 32 1)) ∧
    (ecdsaSignerVerify ecdsaP256Inst (fun _ _ _ _ => true) [116]
        [1, 2, 3] (.ecdsaPubKey ⟨256, p256Gx, p256Gy⟩) = some .invalidSignature) ∧
    (ecdsaSignerVerify ecdsaP256Inst (fun _ _ _ _ => true) [116]
        (List.replicate 64 0) (.ecdsaPubKey ⟨256, p256Gx, p256Gy⟩) =
      (if (fun (_ : EcdsaPubKey) (_ : List Nat) (_ _ : Nat) => true) ⟨256, p256Gx, p256Gy⟩
          (cryptoHashDigest CryptoHash.sha256 [116])
          (bytesToNat ((List.replicate 64 0).take 32))
          (bytesToNat ((List.replicate 64 0).drop 32))
       then none else some ErrKind.invalidSignature)) ∧
    (ecdsaSignerSign ecdsaP384Inst (fun _ _ => some (1, 1)) [116]
        (.ecdsaPrivKey ⟨⟨384, 0, 0⟩, 1⟩) =
      .ok (natToBytesBE 48 1 ++ natToBytesBE 48 1)) ∧
    (ecdsaSignerVerify ecdsaP384Inst (fun _ _ _ _ => true) [116]
        [1, 2, 3] (.ecdsaPubKey ⟨384, 0, 0⟩) = some .invalidSignature) :=
  ⟨(C7_signature_format.1 (fun _ _ => some (1, 1)) [116] ⟨⟨256, p256Gx, p256Gy⟩, 1⟩ 1 1
      (by decide) rfl rfl).1,
   C7_signature_format.2.1 (fun _ _ _ _ => true) [116] [1, 2, 3] ⟨256, p256Gx, p256Gy⟩
      (by decide) (by decide) rfl (by decide),
   C7_signature_format.2.2.1 (fun _ _ _ _ => true) [116] (List.replicate 64 0)
      ⟨256, p256Gx, p256Gy⟩ (by decide) (by decide) rfl (by decide),
   (C7_signature_format.2.2.2.1 (fun _ _ => some (1, 1)) [116] ⟨⟨384, 0, 0⟩, 1⟩ 1 1
      (by decide) rfl rfl).1,
   C7_signature_format.2.2.2.2.1 (fun _ _ _ _ => true) [116] [1, 2, 3] ⟨384, 0, 0⟩
      (by decide) (by decide) rfl (by decide)⟩

/-- C6: for every supported algorithm (Ed25519, ECDSA-P256/SHA-256 and
ECDSA-P384/SHA-384 as registered), for every non-empty message and
every key pair valid for the signing primitives (the standard-library
contract: the primitive's signatures verify under the paired public
key), verifying a freshly produced signature succeeds. -/
theorem C6_sign_verify_roundtrip :
    (∀ (primSign : EcdsaPrivKey → List Nat → Option (Nat × Nat))
        (primVerify : EcdsaPubKey → List Nat → Nat → Nat → Bool)
        (pk : EcdsaPrivKey) (msg : List Nat), msg ≠ [] →
        pk.toPub.curveBits = 256 →
        (∀ digest r s, primSign pk digest = some (r, s) →
            r < 256 ^ 32 ∧ s < 256 ^ 32 ∧ primVerify pk.toPub digest r s = true) →
        (∀ digest, primSign pk digest ≠ none) →
        ∃ sig, ecdsaSignerSign ecdsaP256Inst primSign msg (.ecdsaPrivKey pk) = .ok sig ∧
          ecdsaSignerVerify ecdsaP256Inst primVerify msg sig
            (.ecdsaPubKey pk.toPub) = none) ∧
    (∀ (primSign : EcdsaPrivKey → List Nat → Option (Nat × Nat))
        (primVerify : EcdsaPubKey → List Nat → Nat → Nat → Bool)
        (pk : EcdsaPrivKey) (msg : List Nat), msg ≠ [] →
        pk.toPub.curveBits = 384 →
        (∀ digest r s, primSign pk digest = some (r, s) →
            r < 256 ^ 48 ∧ s < 256 ^ 48 ∧ primVerify pk.toPub digest r s = true) →
        (∀ digest, primSign pk digest ≠ none) →
        ∃ sig, ecdsaSignerSign ecdsaP384Inst primSign msg (.ecdsaPrivKey pk) = .ok sig ∧
          ecdsaSignerVerify ecdsaP384Inst primVerify msg sig
            (.ecdsaPubKey pk.toPub) = none) ∧
    (∀ (primSign : List Nat → List Nat → List Nat)
        (primVerify : List Nat → List Nat → List Nat → Bool)
        (pk pub msg : List Nat), msg ≠ [] →
        pk.length = ed25519PrivateKeySize → pub.length = ed25519PublicKeySize →
        (primSign pk msg).length = 64 →
        primVerify pub msg (primSign pk msg) = true →
        ∃ sig, ed25519SignerSign primSign msg (.ed25519PrivKey pk) = .ok sig ∧
          ed25519SignerVerify primVerify msg sig (.ed25519PubKey pub) = none) := by
  refine ⟨?_, ?_, ?_⟩
  · intro primSign primVerify pk msg hmsg hcv hcontract htotal
    exact ecdsa_roundtrip ecdsaP256Inst primSign primVerify pk msg hmsg
      (by rw [hcv]; rfl) rfl (by decide) hcontract (htotal _)
  · intro primSign primVerify pk msg hmsg hcv hcontract htotal
    exact ecdsa_roundtrip ecdsaP384Inst primSign primVerify pk msg hmsg
      (by rw [hcv]; rfl) rfl (by decide) hcontract (htotal _)
  · intro primSign primVerify pk pub msg hmsg hpk hpub hslen hver
    have h1 : msg.length ≠ 0 := by simpa [List.length_eq_zero] using hmsg
    refine ⟨primSign pk msg, ?_, ?_⟩
    · simp [ed25519SignerSign, h1, hpk]
    · have h2 : (primSign pk msg).length ≠ 0 := by rw [hslen]; omega
      simp [ed25519SignerVerify, h1, h2, hpub, hver]

/-- C6 witness: the three round-trip conclusions at a message "t",
concrete primitive pairs satisfying their contracts, the base-point
P-256 key-pair shape, a P-384-shaped key and a 64/32-byte Ed25519 key
pair. -/
theorem C6_sign_verify_roundtrip_witness :
    (∃ sig, ecdsaSignerSign ecdsaP256Inst (fun _ _ => some (1, 1)) [116]
        (.ecdsaPrivKey ⟨⟨256, p256Gx, p256Gy⟩, 1⟩) = .ok sig ∧
      ecdsaSignerVerify ecdsaP256Inst (fun _ _ r s => r == 1 && s == 1) [116] sig
        (.ecdsaPubKey ⟨256, p256Gx, p256Gy⟩) = none) ∧
    (∃ sig, ecdsaSignerSign ecdsaP384Inst (fun _ _ => some (1, 1)) [116]
        (.ecdsaPrivKey ⟨⟨384, 0, 0⟩, 1⟩) = .ok sig ∧
      ecdsaSignerVerify ecdsaP384Inst (fun _ _ r s => r == 1 && s == 1) [116] sig
        (.ecdsaPubKey ⟨384, 0, 0⟩) = none) ∧
    (∃ sig, ed25519SignerSign (fun _ _ => List.replicate 64 7) [116]
        (.ed25519PrivKey (List.replicate 64 0)) = .ok sig ∧
      ed25519SignerVerify (fun _ _ sg => sg == List.replicate 64 7) [116] sig
        (.ed25519PubKey (List.replicate 32 0)) = none) := by
  refine ⟨?_, ?_, ?_⟩
  · refine C6_sign_verify_roundtrip.1 (fun _ _ => some (1, 1))
      (fun _ _ r s => r == 1 && s == 1) ⟨⟨256, p256Gx, p256Gy⟩, 1⟩ [116]
      (by decide) rfl ?_ (fun _ => by simp)
    intro digest r s hp
    simp only [Option.some.injEq, Prod.mk.injEq] at hp
    obtain ⟨h1, h2⟩ := hp
    subst h1
    subst h2
    exact ⟨by norm_num, by norm_num, rfl⟩
  · refine C6_sign_verify_roundtrip.2.1 (fun _ _ => some (1, 1))
      (fun _ _ r s => r == 1 && s == 1) ⟨⟨384, 0, 0⟩, 1⟩ [116]
      (by decide) rfl ?_ (fun _ => by simp)
    intro digest r s hp
    simp only [Option.some.injEq, Prod.mk.injEq] at hp
    obtain ⟨h1, h2⟩ := hp
    subst h1
    subst h2
    exact ⟨by norm_num, by norm_num, rfl⟩
  · exact C6_sign_verify_roundtrip.2.2 (fun _ _ => List.replicate 64 7)
      (fun _ _ sg => sg == List.replicate 64 7) (List.replicate 64 0)
      (List.replicate 32 0) [116] (by decide) (by decide) (by decide)
      (by decide) (by decide)

end GoTuf
